import Mathlib

/-! bbgo: configuration loading and notifier fan-out

A shallow embedding of `pkg/bbgo/config.go` (the strategy sections of the
configuration file are resolved against the strategy registries) and of
`pkg/bbgo/notifier.go` (broadcast to the registered notifiers).

Conventions of the embedding.

* A Go `map[string]T` is an association list `List (String × T)`. Indexing
  `m[k]` is `List.lookup k m`. A `for k, v := range m` loop visits the pairs
  in the order of the list: Go leaves that order unspecified, so the theorems
  quantify over every list, hence over every order the runtime may choose.
  Where a statement needs a genuine map, it assumes the keys are distinct.
* A Go function that mutates `*Config` and returns `error` becomes a function
  returning the final `Config` paired with `Option Err` (`none` is `nil`).
* Library calls (`ioutil.ReadFile`, `yaml.Unmarshal`, `json.Marshal`,
  `json.Unmarshal`) and the declarations of this package that live in other
  files (the two registries, the strategy interfaces) are parameters.
-/

namespace Bbgo

/-! ## Data model -/

/-- The dynamic values a `Stash` can hold (`interface{}`), split by the type
assertions the loader performs: `string`, `[]string`, `[]interface{}` and
`Stash`; the remaining cases never match any of them. -/
inductive Value where
  | null
  | bool (b : Bool)
  | int (n : Int)
  | str (s : String)
  | strs (values : List String)
  | list (items : List Value)
  | stash (fields : List (String × Value))
  | other (goType : String)

/-- Go `type Stash map[string]interface{}`. -/
abbrev Stash := List (String × Value)

structure PnLReporterConfig where
  AverageCostBySymbols : List String
  Of : List String
  When : List String
  deriving DecidableEq

/-- `ExchangeStrategyMount` wraps the single exchange strategy with the
session names to mount it on. -/
structure ExchangeStrategyMount (σ : Type) where
  Mounts : List String
  Strategy : σ
  deriving DecidableEq

structure SlackNotification where
  DefaultChannel : String
  ErrorChannel : String
  deriving DecidableEq

structure NotificationRouting where
  Trade : String
  Order : String
  SubmitOrder : String
  PnL : String
  deriving DecidableEq

structure NotificationConfig where
  Slack : Option SlackNotification
  SymbolChannels : List (String × String)
  SessionChannels : List (String × String)
  Routing : Option NotificationRouting
  deriving DecidableEq

structure Session where
  ExchangeName : String
  EnvVarPrefix : String
  deriving DecidableEq

structure BacktestAccount where
  MakerCommission : Int
  TakerCommission : Int
  BuyerCommission : Int
  SellerCommission : Int
  Balances : List (String × Int)
  deriving DecidableEq

structure Backtest where
  StartTime : String
  EndTime : String
  Account : BacktestAccount
  Symbols : List String
  deriving DecidableEq

/-- Go `type Config struct`. `ρ` is `RiskControls`, `σ` the values implementing
`SingleExchangeStrategy`, `χ` the values implementing `CrossExchangeStrategy`
(all three declared outside `config.go`). -/
structure Config (ρ σ χ : Type) where
  Imports : List String
  Backtest : Option Backtest
  Notifications : Option NotificationConfig
  Sessions : List (String × Session)
  RiskControls : Option ρ
  ExchangeStrategies : List (ExchangeStrategyMount σ)
  CrossExchangeStrategies : List χ
  PnLReporters : List PnLReporterConfig
  deriving DecidableEq

/-- The zero value `var config Config`. -/
def Config.zero {ρ σ χ : Type} : Config ρ σ χ :=
  { Imports := [], Backtest := none, Notifications := none, Sessions := [],
    RiskControls := none, ExchangeStrategies := [], CrossExchangeStrategies := [],
    PnLReporters := [] }

/-- The errors built in `config.go`. `β` is the serialized payload (`[]byte`). -/
inductive Err (β : Type) where
  /-- The call `errors.New(msg)`. -/
  | new (msg : String)
  /-- The call `fmt.Errorf("strategy config should be a map, given: %T %+v", entry, entry)`. -/
  | notMap (entry : Value)
  /-- An error handed through unchanged from `ioutil`, `yaml` or `json.Marshal`. -/
  | lib (msg : String)
  /-- The call `errors.Wrapf(err, "json parsing error, given payload: %s", plain)`. -/
  | wrapf (cause : String) (plain : β)

/-- What a call does: it returns, or a failed type assertion panics. -/
inductive Outcome (α : Type) where
  | returned (a : α)
  | panicked

/-- The registry `map[string]SingleExchangeStrategy` (respectively
`map[string]CrossExchangeStrategy`): identifier to prototype value. -/
abbrev Registry (σ : Type) := List (String × σ)

/-- The library functions and interface declarations `config.go` relies on.

* `ReadFile` is `ioutil.ReadFile`.
* `yamlConfig content` is `yaml.Unmarshal(content, &config)` on the zero `Config`.
* `yamlStash content` is `yaml.Unmarshal(content, stash)` on an empty `Stash`.
* `jsonMarshal` is `json.Marshal`.
* `jsonUnmarshal plain tpe` is `json.Unmarshal(plain, reflect.New(reflect.TypeOf(tpe)).Interface())`
  followed by `val.Elem().Interface()`: the decoded value has the dynamic type of
  the prototype `tpe`, so it implements `SingleExchangeStrategy` again.
* `asCross v` is the type assertion `v.(CrossExchangeStrategy)`; `none` is a panic. -/
structure Lib (β ρ σ χ : Type) where
  ReadFile : String → Except String String
  yamlConfig : String → Except String (Config ρ σ χ)
  yamlStash : String → Except String Stash
  jsonMarshal : Value → Except String β
  jsonUnmarshal : β → σ → Except String σ
  asCross : σ → Option χ

/-! ## `config.go` -/

section Loader

variable {β ρ σ χ : Type}

/-- Go `func loadStash(config []byte) (Stash, error)`. -/
def loadStash (L : Lib β ρ σ χ) (config : String) : Except (Err β) Stash :=
  match L.yamlStash config with
  | .error e => .error (.lib e)
  | .ok stash => .ok stash

/-- Go `func reUnmarshal(conf interface{}, tpe interface{}) (interface{}, error)`. -/
def reUnmarshal (L : Lib β ρ σ χ) (conf : Value) (tpe : σ) : Except (Err β) σ :=
  match L.jsonMarshal conf with
  | .error e => .error (.lib e)
  | .ok plain =>
    match L.jsonUnmarshal plain tpe with
    | .error e => .error (.wrapf e plain)
    | .ok val => .ok val

/-- The mount list computed at the head of the entry loop of
`loadExchangeStrategies` (lines 233-240). -/
def entryMounts (configStash : Stash) : List String :=
  match configStash.lookup "on" with
  | some (.strs values) => values
  | some (.str s) => [s]
  | _ => []

/-- The inner loop `for id, conf := range configStash` of `loadExchangeStrategies`,
run over the pairs still to visit. -/
def loadExchangeStrategyKeys (L : Lib β ρ σ χ) (LoadedExchangeStrategies : Registry σ)
    (mounts : List String) :
    Config ρ σ χ → List (String × Value) → Config ρ σ χ × Option (Err β)
  | config, [] => (config, none)
  | config, (id, conf) :: rest =>
    match LoadedExchangeStrategies.lookup id with
    | some st =>
      match reUnmarshal L conf st with
      | .error err => (config, some err)
      | .ok val =>
        loadExchangeStrategyKeys L LoadedExchangeStrategies mounts
          { config with
            ExchangeStrategies := config.ExchangeStrategies ++ [{ Mounts := mounts, Strategy := val }] }
          rest
    | none => loadExchangeStrategyKeys L LoadedExchangeStrategies mounts config rest

/-- The outer loop `for _, entry := range configList` of `loadExchangeStrategies`. -/
def loadExchangeStrategyEntries (L : Lib β ρ σ χ) (LoadedExchangeStrategies : Registry σ) :
    Config ρ σ χ → List Value → Config ρ σ χ × Option (Err β)
  | config, [] => (config, none)
  | config, entry :: rest =>
    match entry with
    | .stash configStash =>
      match loadExchangeStrategyKeys L LoadedExchangeStrategies (entryMounts configStash)
          config configStash with
      | (config', none) => loadExchangeStrategyEntries L LoadedExchangeStrategies config' rest
      | (config', some err) => (config', some err)
    | _ => (config, some (.notMap entry))

/-- Go `func loadExchangeStrategies(config *Config, stash Stash) (err error)`. -/
def loadExchangeStrategies (L : Lib β ρ σ χ) (LoadedExchangeStrategies : Registry σ)
    (config : Config ρ σ χ) (stash : Stash) : Config ρ σ χ × Option (Err β) :=
  match stash.lookup "exchangeStrategies" with
  | none => (config, none)
  | some exchangeStrategiesConf =>
    if LoadedExchangeStrategies.length = 0 then
      (config, some (.new "no exchange strategy is registered"))
    else
      match exchangeStrategiesConf with
      | .list configList => loadExchangeStrategyEntries L LoadedExchangeStrategies config configList
      | _ => (config, some (.new "expecting list in exchangeStrategies"))

/-- The inner loop `for id, conf := range configStash` of
`loadCrossExchangeStrategies`: the identifier is looked up in
`LoadedExchangeStrategies` (line 198). -/
def loadCrossExchangeStrategyKeys (L : Lib β ρ σ χ) (LoadedExchangeStrategies : Registry σ) :
    Config ρ σ χ → List (String × Value) → Outcome (Config ρ σ χ × Option (Err β))
  | config, [] => .returned (config, none)
  | config, (id, conf) :: rest =>
    match LoadedExchangeStrategies.lookup id with
    | some st =>
      match reUnmarshal L conf st with
      | .error err => .returned (config, some err)
      | .ok val =>
        match L.asCross val with
        | none => .panicked
        | some strategy =>
          loadCrossExchangeStrategyKeys L LoadedExchangeStrategies
            { config with CrossExchangeStrategies := config.CrossExchangeStrategies ++ [strategy] }
            rest
    | none => loadCrossExchangeStrategyKeys L LoadedExchangeStrategies config rest

/-- The outer loop `for _, entry := range configList` of `loadCrossExchangeStrategies`. -/
def loadCrossExchangeStrategyEntries (L : Lib β ρ σ χ) (LoadedExchangeStrategies : Registry σ) :
    Config ρ σ χ → List Value → Outcome (Config ρ σ χ × Option (Err β))
  | config, [] => .returned (config, none)
  | config, entry :: rest =>
    match entry with
    | .stash configStash =>
      match loadCrossExchangeStrategyKeys L LoadedExchangeStrategies config configStash with
      | .returned (config', none) =>
        loadCrossExchangeStrategyEntries L LoadedExchangeStrategies config' rest
      | .returned (config', some err) => .returned (config', some err)
      | .panicked => .panicked
    | _ => .returned (config, some (.notMap entry))

/-- Go `func loadCrossExchangeStrategies(config *Config, stash Stash) (err error)`. -/
def loadCrossExchangeStrategies (L : Lib β ρ σ χ) (LoadedExchangeStrategies : Registry σ)
    (LoadedCrossExchangeStrategies : Registry χ)
    (config : Config ρ σ χ) (stash : Stash) : Outcome (Config ρ σ χ × Option (Err β)) :=
  match stash.lookup "crossExchangeStrategies" with
  | none => .returned (config, none)
  | some exchangeStrategiesConf =>
    if LoadedCrossExchangeStrategies.length = 0 then
      .returned (config, some (.new "no cross exchange strategy is registered"))
    else
      match exchangeStrategiesConf with
      | .list configList =>
        loadCrossExchangeStrategyEntries L LoadedExchangeStrategies config configList
      | _ => .returned (config, some (.new "expecting list in crossExchangeStrategies"))

/-- Go `func Load(configFile string) (*Config, error)`: the pair returned is
(`*Config`, `error`), with `none` for `nil`. -/
def Load (L : Lib β ρ σ χ) (LoadedExchangeStrategies : Registry σ)
    (LoadedCrossExchangeStrategies : Registry χ) (configFile : String) :
    Outcome (Option (Config ρ σ χ) × Option (Err β)) :=
  match L.ReadFile configFile with
  | .error err => .returned (none, some (.lib err))
  | .ok content =>
    match L.yamlConfig content with
    | .error err => .returned (none, some (.lib err))
    | .ok config =>
      match loadStash L content with
      | .error err => .returned (none, some err)
      | .ok stash =>
        match loadExchangeStrategies L LoadedExchangeStrategies config stash with
        | (_, some err) => .returned (none, some err)
        | (config, none) =>
          match loadCrossExchangeStrategies L LoadedExchangeStrategies
              LoadedCrossExchangeStrategies config stash with
          | .panicked => .panicked
          | .returned (_, some err) => .returned (none, some err)
          | .returned (config, none) => .returned (some config, none)

/-! ### What a section stands for

The definitions below describe the result of the entry loop without running
it; the theorems compare them with the loops above. -/

/-- Whether `id` is a key of the registry. -/
def isRegistered (LoadedExchangeStrategies : Registry σ) (id : String) : Bool :=
  (LoadedExchangeStrategies.lookup id).isSome

/-- The number of keys of an entry that are found in the registry. -/
def registeredKeyCount (LoadedExchangeStrategies : Registry σ) (configStash : Stash) : Nat :=
  configStash.countP (fun kv => isRegistered LoadedExchangeStrategies kv.1)

/-- An entry is resolvable when it contains a registered identifier. -/
def isResolvable (LoadedExchangeStrategies : Registry σ) (configStash : Stash) : Bool :=
  configStash.any (fun kv => isRegistered LoadedExchangeStrategies kv.1)

/-- The mount one key of an entry stands for: the decoded payload when the key
is registered and its payload decodes, nothing otherwise. -/
def keyStrategy (L : Lib β ρ σ χ) (LoadedExchangeStrategies : Registry σ)
    (mounts : List String) (kv : String × Value) : Option (ExchangeStrategyMount σ) :=
  match LoadedExchangeStrategies.lookup kv.1 with
  | none => none
  | some st =>
    match reUnmarshal L kv.2 st with
    | .ok val => some { Mounts := mounts, Strategy := val }
    | .error _ => none

/-- The mounts an entry stands for: one per registered key, in the order the
keys are visited, each carrying the mount list of the entry. -/
def entryStrategies (L : Lib β ρ σ χ) (LoadedExchangeStrategies : Registry σ)
    (configStash : Stash) : List (ExchangeStrategyMount σ) :=
  configStash.filterMap (keyStrategy L LoadedExchangeStrategies (entryMounts configStash))

end Loader

/-! ## `notifier.go` -/

/-- Go `type Notifier interface`. A notifier is the pair of its methods; a call
acts on the world `ω` outside the `Notifiability` (a chat service, a log).
`α` is the type of the variadic arguments. -/
structure Notifier (α ω : Type) where
  NotifyTo : String → String → List α → ω → ω
  Notify : String → List α → ω → ω

/-- Go `type Notifiability struct`. `R` is `PatternChannelRouter` and `O` is
`ObjectChannelRouter` (declared in another file); the router fields are pointers. -/
structure Notifiability (α ω R O : Type) where
  notifiers : List (Notifier α ω)
  SessionChannelRouter : Option R
  SymbolChannelRouter : Option R
  ObjectChannelRouter : Option O

section Notify

variable {α ω R O : Type}

/-- Go `func (m *Notifiability) AddNotifier(notifier Notifier)`. -/
def Notifiability.AddNotifier (m : Notifiability α ω R O) (notifier : Notifier α ω) :
    Notifiability α ω R O :=
  { m with notifiers := m.notifiers ++ [notifier] }

/-- The loop `for _, n := range m.notifiers` of `Notify`, over the notifiers
still to visit. -/
def notifyEach (format : String) (args : List α) : List (Notifier α ω) → ω → ω
  | [], w => w
  | n :: rest, w => notifyEach format args rest (n.Notify format args w)

/-- The loop `for _, n := range m.notifiers` of `NotifyTo`, over the notifiers
still to visit. -/
def notifyToEach (channel format : String) (args : List α) : List (Notifier α ω) → ω → ω
  | [], w => w
  | n :: rest, w => notifyToEach channel format args rest (n.NotifyTo channel format args w)

/-- Go `func (m *Notifiability) Notify(format string, args ...interface{})`: the
receiver after the call and the world after the call. -/
def Notifiability.Notify (m : Notifiability α ω R O) (format : String) (args : List α) (w : ω) :
    Notifiability α ω R O × ω :=
  (m, notifyEach format args m.notifiers w)

/-- Go `func (m *Notifiability) NotifyTo(channel, format string, args ...interface{})`:
the receiver after the call and the world after the call. -/
def Notifiability.NotifyTo (m : Notifiability α ω R O) (channel format : String)
    (args : List α) (w : ω) : Notifiability α ω R O × ω :=
  (m, notifyToEach channel format args m.notifiers w)

/-- A `Notifiability` with no notifiers yet (the zero value of the slice). -/
def Notifiability.empty (session symbol : Option R) (object : Option O) :
    Notifiability α ω R O :=
  { notifiers := [], SessionChannelRouter := session, SymbolChannelRouter := symbol,
    ObjectChannelRouter := object }

/-- Successive `AddNotifier` calls, one per element of `ns`, first to last. -/
def Notifiability.addAll (m : Notifiability α ω R O) (ns : List (Notifier α ω)) :
    Notifiability α ω R O :=
  ns.foldl Notifiability.AddNotifier m

end Notify

/-- One method invocation received by a notifier, as written to a call log. -/
inductive Call (ν α : Type) where
  | Notify (n : ν) (format : String) (args : List α)
  | NotifyTo (n : ν) (channel format : String) (args : List α)
  deriving DecidableEq

/-- The notifier named `n` that does nothing but append each invocation it
receives to the call log. -/
def recorder {ν α : Type} (n : ν) : Notifier α (List (Call ν α)) where
  NotifyTo := fun channel format args log => log ++ [Call.NotifyTo n channel format args]
  Notify := fun format args log => log ++ [Call.Notify n format args]

/-! ## Test doubles

A small instance of the parameters, used to run the loader on concrete
documents: strategy types `Foo{Bar int}` and `Baz{Qux string}`, a cross
exchange strategy type `Arb{N int}`, and a file system holding one
configuration file. -/

namespace Test

/-- Values of the example types implementing `SingleExchangeStrategy`:
`Foo{Bar int}` and `Baz{Qux string}`. -/
inductive Single where
  | Foo (Bar : Int)
  | Baz (Qux : String)
  deriving DecidableEq

/-- Values of the example type implementing `CrossExchangeStrategy`: `Arb{N int}`. -/
inductive Cross where
  | Arb (N : Int)
  deriving DecidableEq

/-- Decoding of a payload into a fresh value of the prototype's type, on the
documents used here: an object sets the field from its lower-case key, leaves it
zero when the key is missing or null, and is rejected when the key holds a
value of another type; `null` leaves the zero value; anything else is rejected.
The serialized payload is kept as the document tree it denotes. -/
def jsonUnmarshal : Value → Single → Except String Single
  | .stash fields, .Foo _ =>
    match fields.lookup "bar" with
    | none => .ok (.Foo 0)
    | some .null => .ok (.Foo 0)
    | some (.int n) => .ok (.Foo n)
    | some _ => .error "json: cannot unmarshal into Go struct field Foo.bar of type int"
  | .stash fields, .Baz _ =>
    match fields.lookup "qux" with
    | none => .ok (.Baz "")
    | some .null => .ok (.Baz "")
    | some (.str s) => .ok (.Baz s)
    | some _ => .error "json: cannot unmarshal into Go struct field Baz.qux of type string"
  | .null, .Foo _ => .ok (.Foo 0)
  | .null, .Baz _ => .ok (.Baz "")
  | _, .Foo _ => .error "json: cannot unmarshal into Go value of type Foo"
  | _, .Baz _ => .error "json: cannot unmarshal into Go value of type Baz"

/-- The example library: every path reads as one file whose static decoding is
the zero `Config` and whose generic parse is `stash`. Neither `Foo` nor `Baz`
implements `CrossExchangeStrategy`. -/
def lib (stash : Stash) : Lib Value Unit Single Cross where
  ReadFile := fun _ => .ok "document"
  yamlConfig := fun _ => .ok Config.zero
  yamlStash := fun _ => .ok stash
  jsonMarshal := fun conf => .ok conf
  jsonUnmarshal := jsonUnmarshal
  asCross := fun _ => none

/-- The example library for documents whose static decoding is not the zero
`Config`: every path reads as one file whose static decoding is `config` and
whose generic parse is `stash`. Strategy values are `Option Single`, with
`none` for the nil interface value the static decoder leaves in a mount whose
document entry names no strategy; prototypes are decoded as in `lib`, and a
nil prototype, which no registration stores, is rejected. -/
def staticLib (config : Config Unit (Option Single) Cross) (stash : Stash) :
    Lib Value Unit (Option Single) Cross where
  ReadFile := fun _ => .ok "document"
  yamlConfig := fun _ => .ok config
  yamlStash := fun _ => .ok stash
  jsonMarshal := fun conf => .ok conf
  jsonUnmarshal := fun plain tpe =>
    match tpe with
    | some prototype =>
      match jsonUnmarshal plain prototype with
      | .ok val => .ok (some val)
      | .error e => .error e
    | none => .error "json: Unmarshal(nil)"
  asCross := fun _ => none

/-- The static decoding of the document `exchangestrategies: [{mounts: [a]}]`:
the untagged field `ExchangeStrategies` is filled from the lower-cased key with
one mount, on `["a"]`, whose strategy is nil. -/
def staticallyFilled : Config Unit (Option Single) Cross :=
  { (Config.zero : Config Unit (Option Single) Cross) with
    ExchangeStrategies := [{ Mounts := ["a"], Strategy := none }] }

end Test

end Bbgo

/-! ## Theorems -/

namespace Bbgo

section LoaderTheorems

variable {β ρ σ χ : Type}

/-! ### The loops of `loadExchangeStrategies` -/

theorem config_append_nil (config : Config ρ σ χ) :
    { config with ExchangeStrategies := config.ExchangeStrategies ++ [] } = config := by
  cases config
  simp

/-- When every registered key of the pairs still to visit has a payload that
decodes, the key loop succeeds and appends one mount per registered key. -/
theorem loadExchangeStrategyKeys_of_decodable (L : Lib β ρ σ χ)
    (LoadedExchangeStrategies : Registry σ) (mounts : List String)
    (kvs : List (String × Value))
    (hdecode : ∀ kv ∈ kvs, ∀ st, LoadedExchangeStrategies.lookup kv.1 = some st →
      ∃ val, reUnmarshal L kv.2 st = .ok val)
    (config : Config ρ σ χ) :
    loadExchangeStrategyKeys L LoadedExchangeStrategies mounts config kvs
      = ({ config with
           ExchangeStrategies := config.ExchangeStrategies
             ++ kvs.filterMap (keyStrategy L LoadedExchangeStrategies mounts) }, none) := by
  induction kvs generalizing config with
  | nil => simp [loadExchangeStrategyKeys, config_append_nil]
  | cons kv rest ih =>
    obtain ⟨id, conf⟩ := kv
    have hrest : ∀ kv ∈ rest, ∀ st, LoadedExchangeStrategies.lookup kv.1 = some st →
        ∃ val, reUnmarshal L kv.2 st = .ok val :=
      fun kv hkv => hdecode kv (List.mem_cons_of_mem _ hkv)
    cases hlook : LoadedExchangeStrategies.lookup id with
    | none =>
      simp [loadExchangeStrategyKeys, hlook, keyStrategy, ih hrest]
    | some st =>
      obtain ⟨val, hval⟩ := hdecode (id, conf) (List.mem_cons_self _ _) st hlook
      simp [loadExchangeStrategyKeys, hlook, keyStrategy, hval, ih hrest]

/-- When every entry is a mapping whose registered keys all decode, the entry
loop succeeds and appends the mounts of the entries in section order. -/
theorem loadExchangeStrategyEntries_of_decodable (L : Lib β ρ σ χ)
    (LoadedExchangeStrategies : Registry σ) (entries : List Stash)
    (hdecode : ∀ entry ∈ entries, ∀ kv ∈ entry, ∀ st,
      LoadedExchangeStrategies.lookup kv.1 = some st → ∃ val, reUnmarshal L kv.2 st = .ok val)
    (config : Config ρ σ χ) :
    loadExchangeStrategyEntries L LoadedExchangeStrategies config (entries.map Value.stash)
      = ({ config with
           ExchangeStrategies := config.ExchangeStrategies
             ++ entries.flatMap (entryStrategies L LoadedExchangeStrategies) }, none) := by
  induction entries generalizing config with
  | nil => simp [loadExchangeStrategyEntries, config_append_nil]
  | cons entry rest ih =>
    have hrest : ∀ entry ∈ rest, ∀ kv ∈ entry, ∀ st,
        LoadedExchangeStrategies.lookup kv.1 = some st →
        ∃ val, reUnmarshal L kv.2 st = .ok val :=
      fun e he => hdecode e (List.mem_cons_of_mem _ he)
    have hkeys := loadExchangeStrategyKeys_of_decodable L LoadedExchangeStrategies
      (entryMounts entry) entry (hdecode entry (List.mem_cons_self _ _)) config
    simp [loadExchangeStrategyEntries, hkeys, ih hrest, entryStrategies]

theorem length_entryStrategies (L : Lib β ρ σ χ) (LoadedExchangeStrategies : Registry σ)
    (entry : Stash)
    (hdecode : ∀ kv ∈ entry, ∀ st, LoadedExchangeStrategies.lookup kv.1 = some st →
      ∃ val, reUnmarshal L kv.2 st = .ok val) :
    (entryStrategies L LoadedExchangeStrategies entry).length
      = registeredKeyCount LoadedExchangeStrategies entry := by
  unfold entryStrategies registeredKeyCount
  generalize entryMounts entry = mounts
  induction entry with
  | nil => simp
  | cons kv rest ih =>
    have hrest : ∀ kv ∈ rest, ∀ st, LoadedExchangeStrategies.lookup kv.1 = some st →
        ∃ val, reUnmarshal L kv.2 st = .ok val :=
      fun kv hkv => hdecode kv (List.mem_cons_of_mem _ hkv)
    cases hlook : LoadedExchangeStrategies.lookup kv.1 with
    | none =>
      simp [List.filterMap_cons, keyStrategy, hlook, isRegistered, List.countP_cons, ih hrest]
    | some st =>
      obtain ⟨val, hval⟩ := hdecode kv (List.mem_cons_self _ _) st hlook
      simp [List.filterMap_cons, keyStrategy, hlook, hval, isRegistered, List.countP_cons,
        ih hrest]

theorem registeredKeyCount_le_one (LoadedExchangeStrategies : Registry σ) (entry : Stash)
    (hone : registeredKeyCount LoadedExchangeStrategies entry ≤ 1) :
    registeredKeyCount LoadedExchangeStrategies entry
      = if isResolvable LoadedExchangeStrategies entry then 1 else 0 := by
  unfold registeredKeyCount isResolvable at *
  by_cases h : entry.any (fun kv => isRegistered LoadedExchangeStrategies kv.1) = true
  · have hpos : 0 < entry.countP (fun kv => isRegistered LoadedExchangeStrategies kv.1) := by
      rw [List.countP_pos_iff]
      simpa using h
    rw [if_pos h]
    omega
  · rw [if_neg h]
    have hzero : ¬ 0 < entry.countP (fun kv => isRegistered LoadedExchangeStrategies kv.1) := by
      rw [List.countP_pos_iff]
      simpa using h
    omega

theorem keyStrategy_filterMap_unregistered (L : Lib β ρ σ χ)
    (LoadedExchangeStrategies : Registry σ) (mounts : List String)
    (kvs : List (String × Value))
    (hnone : ∀ kv ∈ kvs, LoadedExchangeStrategies.lookup kv.1 = none) :
    kvs.filterMap (keyStrategy L LoadedExchangeStrategies mounts) = [] := by
  rw [List.filterMap_eq_nil_iff]
  intro kv hkv
  simp [keyStrategy, hnone kv hkv]

/-- In a map whose only registered key is `id`, with a payload that decodes,
the keys stand for exactly one mount. -/
theorem keyStrategy_filterMap_single (L : Lib β ρ σ χ)
    (LoadedExchangeStrategies : Registry σ) (mounts : List String)
    (id : String) (payload : Value) (prototype decoded : σ)
    (hid : LoadedExchangeStrategies.lookup id = some prototype)
    (hdecode : reUnmarshal L payload prototype = .ok decoded)
    (kvs : List (String × Value))
    (hnodup : (kvs.map Prod.fst).Nodup)
    (hmem : (id, payload) ∈ kvs)
    (hothers : ∀ kv ∈ kvs, kv.1 ≠ id → LoadedExchangeStrategies.lookup kv.1 = none) :
    kvs.filterMap (keyStrategy L LoadedExchangeStrategies mounts)
      = [{ Mounts := mounts, Strategy := decoded }] := by
  induction kvs with
  | nil => simp at hmem
  | cons kv rest ih =>
    rw [List.map_cons, List.nodup_cons] at hnodup
    obtain ⟨hfresh, hnodup'⟩ := hnodup
    rcases List.mem_cons.mp hmem with hhead | htail
    · subst hhead
      have hrest : ∀ kv ∈ rest, LoadedExchangeStrategies.lookup kv.1 = none := by
        intro kv hkv
        apply hothers kv (List.mem_cons_of_mem _ hkv)
        intro heq
        exact hfresh (List.mem_map.mpr ⟨kv, hkv, heq⟩)
      simp [List.filterMap_cons, keyStrategy, hid, hdecode,
        keyStrategy_filterMap_unregistered L LoadedExchangeStrategies mounts rest hrest]
    · have hne : kv.1 ≠ id := by
        intro heq
        exact hfresh (List.mem_map.mpr ⟨(id, payload), htail, heq.symm⟩)
      have hkv := hothers kv (List.mem_cons_self _ _) hne
      have ih' := ih hnodup' htail (fun kv hkv => hothers kv (List.mem_cons_of_mem _ hkv))
      simp [List.filterMap_cons, keyStrategy, hkv, ih']

theorem lookup_filter_of_kept {γ : Type} (p : String × γ → Bool) (k : String)
    (kvs : List (String × γ)) (hkept : ∀ kv ∈ kvs, kv.1 = k → p kv = true) :
    (kvs.filter p).lookup k = kvs.lookup k := by
  induction kvs with
  | nil => rfl
  | cons kv rest ih =>
    obtain ⟨k', v⟩ := kv
    have ih' := ih (fun kv hkv => hkept kv (List.mem_cons_of_mem _ hkv))
    by_cases hk : k' = k
    · subst hk
      have hp := hkept (k', v) (List.mem_cons_self _ _) rfl
      simp [List.filter_cons, hp, List.lookup]
    · have hbeq : (k == k') = false := by simp [Ne.symm hk]
      by_cases hp : p (k', v) = true
      · simp [List.filter_cons, hp, List.lookup, hbeq, ih']
      · simp [List.filter_cons, hp, List.lookup, hbeq, ih']

/-- Claim C5. When the section key is present and the corresponding registry
is empty, each loader returns its no-strategy-registered error and leaves the
config as it was, whatever value the section holds (an empty list included). -/
theorem empty_registry_is_error (L : Lib β ρ σ χ) (LoadedExchangeStrategies : Registry σ)
    (config : Config ρ σ χ) (stash : Stash) (section_ : Value) :
    (stash.lookup "exchangeStrategies" = some section_ →
      loadExchangeStrategies L ([] : Registry σ) config stash
        = (config, some (.new "no exchange strategy is registered"))) ∧
    (stash.lookup "crossExchangeStrategies" = some section_ →
      loadCrossExchangeStrategies L LoadedExchangeStrategies ([] : Registry χ) config stash
        = .returned (config, some (.new "no cross exchange strategy is registered"))) := by
  constructor
  · intro h
    simp [loadExchangeStrategies, h]
  · intro h
    simp [loadCrossExchangeStrategies, h]

/-- Claim C5, at an empty list: with empty registries the sections
`exchangeStrategies: []` and `crossExchangeStrategies: []` are both rejected. -/
theorem empty_registry_is_error_witness :
    loadExchangeStrategies (Test.lib []) ([] : Registry Test.Single) Config.zero
        [("exchangeStrategies", .list []), ("crossExchangeStrategies", .list [])]
      = (Config.zero, some (.new "no exchange strategy is registered")) ∧
    loadCrossExchangeStrategies (Test.lib []) [("foo", Test.Single.Foo 0)]
        ([] : Registry Test.Cross) Config.zero
        [("exchangeStrategies", .list []), ("crossExchangeStrategies", .list [])]
      = .returned (Config.zero, some (.new "no cross exchange strategy is registered")) :=
  ⟨(empty_registry_is_error (Test.lib []) [("foo", Test.Single.Foo 0)] Config.zero
      [("exchangeStrategies", .list []), ("crossExchangeStrategies", .list [])] (.list [])).1 rfl,
   (empty_registry_is_error (Test.lib []) [("foo", Test.Single.Foo 0)] Config.zero
      [("exchangeStrategies", .list []), ("crossExchangeStrategies", .list [])] (.list [])).2 rfl⟩

/-- Claim C6, refuted as stated: with an empty registry the non-list section
`exchangeStrategies: "oops"` is reported as the no-strategy-registered error,
not as the malformed-section error. -/
theorem nonlist_section_empty_registry_counterexample :
    (loadExchangeStrategies (Test.lib []) ([] : Registry Test.Single) Config.zero
        [("exchangeStrategies", .str "oops")]).2
      = some (.new "no exchange strategy is registered") ∧
    (loadExchangeStrategies (Test.lib []) ([] : Registry Test.Single) Config.zero
        [("exchangeStrategies", .str "oops")]).2
      ≠ some (.new "expecting list in exchangeStrategies") := by
  constructor
  · rfl
  · simp [loadExchangeStrategies]

/-- Claim C6, amended. For a present section whose value is not a list,
`loadExchangeStrategies` fails with "expecting list in exchangeStrategies" when
the registry is non-empty, and with "no exchange strategy is registered" when
the registry is empty: the registry check comes before the shape check. In
both cases the config is left as it was. -/
theorem nonlist_section_error (L : Lib β ρ σ χ) (LoadedExchangeStrategies : Registry σ)
    (config : Config ρ σ χ) (stash : Stash) (section_ : Value)
    (hpresent : stash.lookup "exchangeStrategies" = some section_)
    (hshape : ∀ items, section_ ≠ .list items) :
    (LoadedExchangeStrategies ≠ [] →
      loadExchangeStrategies L LoadedExchangeStrategies config stash
        = (config, some (.new "expecting list in exchangeStrategies"))) ∧
    (LoadedExchangeStrategies = [] →
      loadExchangeStrategies L LoadedExchangeStrategies config stash
        = (config, some (.new "no exchange strategy is registered"))) := by
  constructor
  · intro hne
    cases section_ <;> simp_all [loadExchangeStrategies]
  · intro he
    simp [loadExchangeStrategies, hpresent, he]

/-- Claim C6, amended, at `exchangeStrategies: "oops"`: malformed-section error
with `foo` registered, no-strategy-registered error with nothing registered. -/
theorem nonlist_section_error_witness :
    loadExchangeStrategies (Test.lib []) [("foo", Test.Single.Foo 0)] Config.zero
        [("exchangeStrategies", .str "oops")]
      = (Config.zero, some (.new "expecting list in exchangeStrategies")) ∧
    loadExchangeStrategies (Test.lib []) ([] : Registry Test.Single) Config.zero
        [("exchangeStrategies", .str "oops")]
      = (Config.zero, some (.new "no exchange strategy is registered")) :=
  ⟨(nonlist_section_error (Test.lib []) [("foo", Test.Single.Foo 0)] Config.zero
      [("exchangeStrategies", .str "oops")] (.str "oops") rfl (by simp)).1 (by simp),
   (nonlist_section_error (Test.lib []) ([] : Registry Test.Single) Config.zero
      [("exchangeStrategies", .str "oops")] (.str "oops") rfl (by simp)).2 rfl⟩

/-- Claim C9, refuted as stated. The document
`exchangestrategies: [{mounts: [a]}]` has neither the `exchangeStrategies` nor
the `crossExchangeStrategies` key, and both registries are empty; its static
decoding fills the untagged field `ExchangeStrategies` (lines 115-116) from the
lower-cased key with one mount on `["a"]` and a nil strategy. `Load` returns
that `Config`, whose `ExchangeStrategies` list is not empty. -/
theorem static_decode_fills_strategy_list_counterexample :
    List.lookup "exchangeStrategies"
        [("exchangestrategies", Value.list [.stash [("mounts", .list [.str "a"])]])] = none ∧
    List.lookup "crossExchangeStrategies"
        [("exchangestrategies", Value.list [.stash [("mounts", .list [.str "a"])]])] = none ∧
    Load (Test.staticLib Test.staticallyFilled
          [("exchangestrategies", .list [.stash [("mounts", .list [.str "a"])]])])
        ([] : Registry (Option Test.Single)) ([] : Registry Test.Cross) "bbgo.yaml"
      = .returned (some Test.staticallyFilled, none) ∧
    Test.staticallyFilled.ExchangeStrategies = [{ Mounts := ["a"], Strategy := none }] ∧
    Test.staticallyFilled.ExchangeStrategies ≠ [] := by
  refine ⟨rfl, rfl, rfl, rfl, ?_⟩
  simp [Test.staticallyFilled]

/-- Claim C9, amended. A loader whose section key is absent from the stash
returns success and the config it was given, for every config and every
registry (empty ones included). Hence `Load` of a file whose stash has neither
key returns, with a nil error, exactly the `Config` the static decoding
produced: its two strategy lists are the ones the static decoder left. -/
theorem absent_section_is_noop (L : Lib β ρ σ χ) (LoadedExchangeStrategies : Registry σ)
    (LoadedCrossExchangeStrategies : Registry χ) (config : Config ρ σ χ) (stash : Stash) :
    (stash.lookup "exchangeStrategies" = none →
      loadExchangeStrategies L LoadedExchangeStrategies config stash = (config, none)) ∧
    (stash.lookup "crossExchangeStrategies" = none →
      loadCrossExchangeStrategies L LoadedExchangeStrategies LoadedCrossExchangeStrategies
        config stash = .returned (config, none)) ∧
    (∀ configFile content,
      L.ReadFile configFile = .ok content →
      L.yamlConfig content = .ok config →
      L.yamlStash content = .ok stash →
      stash.lookup "exchangeStrategies" = none →
      stash.lookup "crossExchangeStrategies" = none →
      Load L LoadedExchangeStrategies LoadedCrossExchangeStrategies configFile
        = .returned (some config, none)) := by
  refine ⟨?_, ?_, ?_⟩
  · intro h
    simp [loadExchangeStrategies, h]
  · intro h
    simp [loadCrossExchangeStrategies, h]
  · intro configFile content hread hconfig hstash hS hX
    simp [Load, loadStash, hread, hconfig, hstash, loadExchangeStrategies,
      loadCrossExchangeStrategies, hS, hX]

/-- Claim C9, amended, at a document with only a `sessions` key and with both
registries empty: both loaders are no-ops and `Load` returns the statically
decoded config, here the zero config. -/
theorem absent_section_is_noop_witness :
    loadExchangeStrategies (Test.lib [("sessions", .stash [])]) ([] : Registry Test.Single)
        Config.zero [("sessions", .stash [])] = (Config.zero, none) ∧
    loadCrossExchangeStrategies (Test.lib [("sessions", .stash [])]) ([] : Registry Test.Single)
        ([] : Registry Test.Cross) Config.zero [("sessions", .stash [])]
      = .returned (Config.zero, none) ∧
    Load (Test.lib [("sessions", .stash [])]) ([] : Registry Test.Single)
        ([] : Registry Test.Cross) "bbgo.yaml" = .returned (some Config.zero, none) :=
  ⟨(absent_section_is_noop (Test.lib [("sessions", .stash [])]) [] [] Config.zero
      [("sessions", .stash [])]).1 rfl,
   (absent_section_is_noop (Test.lib [("sessions", .stash [])]) [] [] Config.zero
      [("sessions", .stash [])]).2.1 rfl,
   (absent_section_is_noop (Test.lib [("sessions", .stash [])]) [] [] Config.zero
      [("sessions", .stash [])]).2.2 "bbgo.yaml" "document" rfl rfl rfl rfl rfl⟩

/-- Claim C1. With `id` registered and `"on"` not registered, a section that
is the one-entry list `[{on: s, id: payload}]` (its two keys visited in either
order) whose payload decodes makes `loadExchangeStrategies` succeed and append
exactly one mount, with `Mounts = [s]` and the decoded payload as `Strategy`. -/
theorem single_entry_is_mounted (L : Lib β ρ σ χ) (LoadedExchangeStrategies : Registry σ)
    (config : Config ρ σ χ) (stash : Stash) (id s : String) (payload : Value)
    (prototype decoded : σ) (entry : Stash)
    (hid : LoadedExchangeStrategies.lookup id = some prototype)
    (hon : LoadedExchangeStrategies.lookup "on" = none)
    (hsection : stash.lookup "exchangeStrategies" = some (.list [.stash entry]))
    (hentry : entry = [("on", .str s), (id, payload)] ∨ entry = [(id, payload), ("on", .str s)])
    (hdecode : reUnmarshal L payload prototype = .ok decoded) :
    loadExchangeStrategies L LoadedExchangeStrategies config stash
      = ({ config with
           ExchangeStrategies :=
             config.ExchangeStrategies ++ [{ Mounts := [s], Strategy := decoded }] }, none) := by
  have hne : id ≠ "on" := by
    rintro rfl
    simp [hon] at hid
  have hne' : ("on" == id) = false := by
    simp [Ne.symm hne]
  have hreg : LoadedExchangeStrategies.length ≠ 0 := by
    intro h
    have : LoadedExchangeStrategies = [] := List.length_eq_zero.mp h
    simp [this] at hid
  rcases hentry with h | h
  · subst h
    simp [loadExchangeStrategies, hsection, hreg, loadExchangeStrategyEntries,
      loadExchangeStrategyKeys, entryMounts, List.lookup, hid, hon, hdecode]
  · subst h
    simp [loadExchangeStrategies, hsection, hreg, loadExchangeStrategyEntries,
      loadExchangeStrategyKeys, entryMounts, List.lookup, hid, hon, hdecode, hne']

/-- Claim C1, at the documented example: `foo` registered with prototype
`Foo{Bar int}` and the entry `{on: "session1", foo: {bar: 5}}` give one mount
with `Mounts = ["session1"]` and `Bar = 5`. -/
theorem single_entry_is_mounted_witness :
    loadExchangeStrategies (Test.lib []) [("foo", Test.Single.Foo 0)] Config.zero
        [("exchangeStrategies",
          .list [.stash [("on", .str "session1"), ("foo", .stash [("bar", .int 5)])]])]
      = ({ (Config.zero : Config Unit Test.Single Test.Cross) with
           ExchangeStrategies := [{ Mounts := ["session1"], Strategy := Test.Single.Foo 5 }] },
         none) :=
  single_entry_is_mounted (Test.lib []) [("foo", Test.Single.Foo 0)] Config.zero
    [("exchangeStrategies",
      .list [.stash [("on", .str "session1"), ("foo", .stash [("bar", .int 5)])]])]
    "foo" "session1" (.stash [("bar", .int 5)]) (Test.Single.Foo 0) (Test.Single.Foo 5)
    [("on", .str "session1"), ("foo", .stash [("bar", .int 5)])]
    rfl rfl rfl (Or.inl rfl) rfl

/-- Claim C3, evaluated on the code. With `foo` registered, the entry
`{on: "session1", foo: {bar: 5}}` is mounted on `["session1"]`, while the entry
`{on: ["session1"], foo: {bar: 5}}`, whose `on` value is the generic list the
document parse produces, is mounted on the empty list: the `[]string` assertion
of line 235 does not match a `[]interface{}`, and neither does the `string`
assertion of line 237. -/
theorem mounts_of_generic_list_are_empty :
    loadExchangeStrategies (Test.lib []) [("foo", Test.Single.Foo 0)] Config.zero
        [("exchangeStrategies",
          .list [.stash [("on", .str "session1"), ("foo", .stash [("bar", .int 5)])]])]
      = ({ (Config.zero : Config Unit Test.Single Test.Cross) with
           ExchangeStrategies := [{ Mounts := ["session1"], Strategy := Test.Single.Foo 5 }] },
         none) ∧
    loadExchangeStrategies (Test.lib []) [("foo", Test.Single.Foo 0)] Config.zero
        [("exchangeStrategies",
          .list [.stash [("on", .list [.str "session1"]), ("foo", .stash [("bar", .int 5)])]])]
      = ({ (Config.zero : Config Unit Test.Single Test.Cross) with
           ExchangeStrategies := [{ Mounts := [], Strategy := Test.Single.Foo 5 }] },
         none) :=
  ⟨rfl, rfl⟩

/-- Claim C2, evaluated on the code. The section is
`crossExchangeStrategies: [{arb: {n: 5}}]` and `arb` is in the cross-exchange
registry. With a single-exchange registry that holds only `foo`, the loader
returns success and appends nothing: the key is looked up in
`LoadedExchangeStrategies` (line 198) and not found there. With a
single-exchange registry that holds `arb`, the same call decodes the payload
into that registry's type and the assertion to `CrossExchangeStrategy` panics. -/
theorem cross_section_reads_single_registry :
    loadCrossExchangeStrategies (Test.lib []) [("foo", Test.Single.Foo 0)]
        [("arb", Test.Cross.Arb 0)] Config.zero
        [("crossExchangeStrategies", .list [.stash [("arb", .stash [("n", .int 5)])]])]
      = .returned (Config.zero, none) ∧
    loadCrossExchangeStrategies (Test.lib []) [("arb", Test.Single.Foo 0)]
        [("arb", Test.Cross.Arb 0)] Config.zero
        [("crossExchangeStrategies", .list [.stash [("arb", .stash [("n", .int 5)])]])]
      = .panicked :=
  ⟨rfl, rfl⟩

/-- Claim C8, evaluated on the code. The document is
`crossExchangeStrategies: [{arb: {n: "five"}}]`, with `arb` registered in the
cross-exchange registry (type `Arb{N int}`, into which the payload does not
decode) and `foo` in the single-exchange registry. `Load` returns a `Config`
and a nil error: the payload is never decoded, because the key is looked up in
`LoadedExchangeStrategies` (line 198). -/
theorem Load_misses_cross_decode_failure :
    Load (Test.lib [("crossExchangeStrategies",
            .list [.stash [("arb", .stash [("n", .str "five")])]])])
        [("foo", Test.Single.Foo 0)] [("arb", Test.Cross.Arb 0)] "bbgo.yaml"
      = .returned (some Config.zero, none) :=
  rfl

/-- Claim C4, refuted as stated: with `foo` and `baz` registered, the one
entry `{foo: {bar: 5}, baz: {qux: "x"}}` is the only resolvable entry of its
section, and two mounts are appended for it. -/
theorem two_mounts_for_one_entry_counterexample :
    (loadExchangeStrategies (Test.lib []) [("foo", Test.Single.Foo 0), ("baz", Test.Single.Baz "")]
        (Config.zero : Config Unit Test.Single Test.Cross)
        [("exchangeStrategies",
          .list [.stash [("foo", .stash [("bar", .int 5)]),
                         ("baz", .stash [("qux", .str "x")])]])]).1.ExchangeStrategies.length = 2 ∧
    List.countP (isResolvable [("foo", Test.Single.Foo 0), ("baz", Test.Single.Baz "")])
        [[("foo", .stash [("bar", .int 5)]), ("baz", .stash [("qux", .str "x")])]] = 1 := by
  constructor
  · rfl
  · rfl

/-- Claim C4, amended. For a section that is a list of mappings, at least one
of them resolvable, in which every registered key has a payload that decodes,
`loadExchangeStrategies` succeeds and appends one mount per registered key of
each entry, the mounts of an earlier entry before those of a later one. The
number of appended mounts is the total number of registered keys, and it is
the number of resolvable entries when no entry holds more than one registered
key. -/
theorem section_mounts_in_order (L : Lib β ρ σ χ) (LoadedExchangeStrategies : Registry σ)
    (config : Config ρ σ χ) (stash : Stash) (entries : List Stash)
    (hsection : stash.lookup "exchangeStrategies" = some (.list (entries.map Value.stash)))
    (hsome : ∃ entry ∈ entries, isResolvable LoadedExchangeStrategies entry = true)
    (hdecode : ∀ entry ∈ entries, ∀ kv ∈ entry, ∀ st,
      LoadedExchangeStrategies.lookup kv.1 = some st → ∃ val, reUnmarshal L kv.2 st = .ok val) :
    loadExchangeStrategies L LoadedExchangeStrategies config stash
      = ({ config with
           ExchangeStrategies := config.ExchangeStrategies
             ++ entries.flatMap (entryStrategies L LoadedExchangeStrategies) }, none) ∧
    (entries.flatMap (entryStrategies L LoadedExchangeStrategies)).length
      = (entries.map (registeredKeyCount LoadedExchangeStrategies)).sum ∧
    ((∀ entry ∈ entries, registeredKeyCount LoadedExchangeStrategies entry ≤ 1) →
      (entries.flatMap (entryStrategies L LoadedExchangeStrategies)).length
        = entries.countP (isResolvable LoadedExchangeStrategies)) := by
  have hreg : LoadedExchangeStrategies.length ≠ 0 := by
    obtain ⟨entry, _, hres⟩ := hsome
    intro h
    have hnil : LoadedExchangeStrategies = [] := List.length_eq_zero.mp h
    subst hnil
    simp [isResolvable, isRegistered] at hres
  have hlen : (entries.flatMap (entryStrategies L LoadedExchangeStrategies)).length
      = (entries.map (registeredKeyCount LoadedExchangeStrategies)).sum := by
    rw [List.length_flatMap]
    congr 1
    apply List.map_congr_left
    intro entry hentry
    exact length_entryStrategies L LoadedExchangeStrategies entry (hdecode entry hentry)
  refine ⟨?_, hlen, ?_⟩
  · simp only [loadExchangeStrategies, hsection, hreg, if_false]
    exact loadExchangeStrategyEntries_of_decodable L LoadedExchangeStrategies entries hdecode config
  · intro hone
    rw [hlen]
    clear hsection hsome hdecode hlen
    induction entries with
    | nil => simp
    | cons entry rest ih =>
      have hhead := registeredKeyCount_le_one LoadedExchangeStrategies entry
        (hone entry (List.mem_cons_self _ _))
      have ih' := ih (fun e he => hone e (List.mem_cons_of_mem _ he))
      rw [List.map_cons, List.sum_cons, ih', hhead, List.countP_cons]
      omega

/-- Claim C4, amended, at a section of three entries: `{on: "a", foo: {bar: 1}}`,
the unresolvable `{note: "x"}` and `{baz: {qux: "q"}, foo: {bar: 2}}`. Three
mounts are appended, in section order, for two resolvable entries. With only
`foo` registered and the first two entries alone, no entry holds more than one
registered key and the number of mounts is the number of resolvable entries. -/
theorem section_mounts_in_order_witness :
    loadExchangeStrategies (Test.lib []) [("foo", Test.Single.Foo 0), ("baz", Test.Single.Baz "")]
        (Config.zero : Config Unit Test.Single Test.Cross)
        [("exchangeStrategies",
          .list [.stash [("on", .str "a"), ("foo", .stash [("bar", .int 1)])],
                 .stash [("note", .str "x")],
                 .stash [("baz", .stash [("qux", .str "q")]), ("foo", .stash [("bar", .int 2)])]])]
      = ({ (Config.zero : Config Unit Test.Single Test.Cross) with
           ExchangeStrategies :=
             [{ Mounts := ["a"], Strategy := Test.Single.Foo 1 },
              { Mounts := [], Strategy := Test.Single.Baz "q" },
              { Mounts := [], Strategy := Test.Single.Foo 2 }] }, none) ∧
    (List.flatMap [[("on", Value.str "a"), ("foo", Value.stash [("bar", .int 1)])],
          [("note", Value.str "x")]]
        (entryStrategies (Test.lib []) [("foo", Test.Single.Foo 0)])).length
      = List.countP (isResolvable [("foo", Test.Single.Foo 0)])
          [[("on", Value.str "a"), ("foo", Value.stash [("bar", .int 1)])],
           [("note", Value.str "x")]] :=
  ⟨(section_mounts_in_order (Test.lib []) [("foo", Test.Single.Foo 0), ("baz", Test.Single.Baz "")]
    Config.zero
    [("exchangeStrategies",
      .list [.stash [("on", .str "a"), ("foo", .stash [("bar", .int 1)])],
             .stash [("note", .str "x")],
             .stash [("baz", .stash [("qux", .str "q")]), ("foo", .stash [("bar", .int 2)])]])]
    [[("on", .str "a"), ("foo", .stash [("bar", .int 1)])],
     [("note", .str "x")],
     [("baz", .stash [("qux", .str "q")]), ("foo", .stash [("bar", .int 2)])]]
    rfl
    ⟨[("on", .str "a"), ("foo", .stash [("bar", .int 1)])], by simp, rfl⟩
    (by
      intro entry hentry kv hkv st hst
      simp only [List.mem_cons, List.mem_singleton, List.not_mem_nil, or_false] at hentry
      rcases hentry with h | h | h
      · subst h
        simp only [List.mem_cons, List.mem_singleton, List.not_mem_nil, or_false] at hkv
        rcases hkv with h | h
        · subst h
          simp [List.lookup] at hst
        · subst h
          simp [List.lookup] at hst
          subst hst
          exact ⟨Test.Single.Foo 1, rfl⟩
      · subst h
        simp only [List.mem_cons, List.mem_singleton, List.not_mem_nil, or_false] at hkv
        subst hkv
        simp [List.lookup] at hst
      · subst h
        simp only [List.mem_cons, List.mem_singleton, List.not_mem_nil, or_false] at hkv
        rcases hkv with h | h
        · subst h
          simp [List.lookup] at hst
          subst hst
          exact ⟨Test.Single.Baz "q", rfl⟩
        · subst h
          simp [List.lookup] at hst
          subst hst
          exact ⟨Test.Single.Foo 2, rfl⟩)).1,
   (section_mounts_in_order (Test.lib []) [("foo", Test.Single.Foo 0)]
    (Config.zero : Config Unit Test.Single Test.Cross)
    [("exchangeStrategies",
      .list [.stash [("on", .str "a"), ("foo", .stash [("bar", .int 1)])],
             .stash [("note", .str "x")]])]
    [[("on", .str "a"), ("foo", .stash [("bar", .int 1)])], [("note", .str "x")]]
    rfl
    ⟨[("on", .str "a"), ("foo", .stash [("bar", .int 1)])], by simp, rfl⟩
    (by
      intro entry hentry kv hkv st hst
      simp only [List.mem_cons, List.mem_singleton, List.not_mem_nil, or_false] at hentry
      rcases hentry with h | h
      · subst h
        simp only [List.mem_cons, List.mem_singleton, List.not_mem_nil, or_false] at hkv
        rcases hkv with h | h
        · subst h
          simp [List.lookup] at hst
        · subst h
          simp [List.lookup] at hst
          subst hst
          exact ⟨Test.Single.Foo 1, rfl⟩
      · subst h
        simp only [List.mem_cons, List.mem_singleton, List.not_mem_nil, or_false] at hkv
        subst hkv
        simp [List.lookup] at hst)).2.2
    (by
      intro entry hentry
      simp only [List.mem_cons, List.mem_singleton, List.not_mem_nil, or_false] at hentry
      rcases hentry with h | h <;> subst h <;> decide)⟩

/-- Claim C7, refuted as stated: with only `foo` registered, `on` is a key
not found in the registry, and the entry `{on: "session1", foo: {bar: 5}}` does
not give the result of the entry `{foo: {bar: 5}}` that is left once the
unregistered keys are removed: the first is mounted on `["session1"]`, the
second on the empty list. -/
theorem removing_on_changes_mounts_counterexample :
    List.lookup "on" [("foo", Test.Single.Foo 0)] = none ∧
    loadExchangeStrategies (Test.lib []) [("foo", Test.Single.Foo 0)]
        (Config.zero : Config Unit Test.Single Test.Cross)
        [("exchangeStrategies",
          .list [.stash [("on", .str "session1"), ("foo", .stash [("bar", .int 5)])]])]
      ≠ loadExchangeStrategies (Test.lib []) [("foo", Test.Single.Foo 0)]
        (Config.zero : Config Unit Test.Single Test.Cross)
        [("exchangeStrategies", .list [.stash [("foo", .stash [("bar", .int 5)])]])] := by
  refine ⟨rfl, ?_⟩
  intro h
  have hmounts := congrArg (fun r => r.1.ExchangeStrategies.map (fun m => m.Mounts)) h
  revert hmounts
  decide

/-- Claim C7, amended. With a non-empty registry and an entry (a map, so with
distinct keys) in which `id` is registered with a payload that decodes and
every other key is not registered, `loadExchangeStrategies` returns no error
and appends exactly one mount, for `id`, carrying the mount list read from the
entry's `on` key. The result is the same for the entry with the unregistered
keys other than `on` removed, whatever values they hold. -/
theorem unregistered_keys_are_ignored (L : Lib β ρ σ χ) (LoadedExchangeStrategies : Registry σ)
    (config : Config ρ σ χ) (stash stash' : Stash) (entry : Stash)
    (id : String) (payload : Value) (prototype decoded : σ)
    (hnodup : (entry.map Prod.fst).Nodup)
    (hmem : (id, payload) ∈ entry)
    (hid : LoadedExchangeStrategies.lookup id = some prototype)
    (hdecode : reUnmarshal L payload prototype = .ok decoded)
    (hothers : ∀ kv ∈ entry, kv.1 ≠ id → LoadedExchangeStrategies.lookup kv.1 = none)
    (hsection : stash.lookup "exchangeStrategies" = some (.list [.stash entry]))
    (hsection' : stash'.lookup "exchangeStrategies"
      = some (.list [.stash (entry.filter (fun kv => kv.1 == id || kv.1 == "on"))])) :
    loadExchangeStrategies L LoadedExchangeStrategies config stash
      = ({ config with
           ExchangeStrategies := config.ExchangeStrategies
             ++ [{ Mounts := entryMounts entry, Strategy := decoded }] }, none) ∧
    loadExchangeStrategies L LoadedExchangeStrategies config stash'
      = loadExchangeStrategies L LoadedExchangeStrategies config stash := by
  have hreg : LoadedExchangeStrategies.length ≠ 0 := by
    intro h
    have hnil : LoadedExchangeStrategies = [] := List.length_eq_zero.mp h
    simp [hnil] at hid
  -- the result for any map whose only registered key is `id`
  have hrun : ∀ (kvs : Stash) (st : Stash),
      (kvs.map Prod.fst).Nodup → (id, payload) ∈ kvs →
      (∀ kv ∈ kvs, kv.1 ≠ id → LoadedExchangeStrategies.lookup kv.1 = none) →
      st.lookup "exchangeStrategies" = some (.list [.stash kvs]) →
      loadExchangeStrategies L LoadedExchangeStrategies config st
        = ({ config with
             ExchangeStrategies := config.ExchangeStrategies
               ++ [{ Mounts := entryMounts kvs, Strategy := decoded }] }, none) := by
    intro kvs st hnd hin hoth hsec
    have hdec : ∀ kv ∈ kvs, ∀ p, LoadedExchangeStrategies.lookup kv.1 = some p →
        ∃ val, reUnmarshal L kv.2 p = .ok val := by
      intro kv hkv p hp
      by_cases hk : kv.1 = id
      · have hkv' : kv = (id, payload) := by
          have hinj := List.inj_on_of_nodup_map hnd hkv hin hk
          exact hinj
        subst hkv'
        rw [hid] at hp
        cases hp
        exact ⟨decoded, hdecode⟩
      · rw [hoth kv hkv hk] at hp
        cases hp
    have hkeys := loadExchangeStrategyKeys_of_decodable L LoadedExchangeStrategies
      (entryMounts kvs) kvs hdec config
    have hone := keyStrategy_filterMap_single L LoadedExchangeStrategies (entryMounts kvs)
      id payload prototype decoded hid hdecode kvs hnd hin hoth
    simp [loadExchangeStrategies, hsec, hreg, loadExchangeStrategyEntries, hkeys, hone]
  have hfirst := hrun entry stash hnodup hmem hothers hsection
  have hnodup' : ((entry.filter (fun kv => kv.1 == id || kv.1 == "on")).map Prod.fst).Nodup :=
    List.Nodup.sublist ((List.filter_sublist entry).map Prod.fst) hnodup
  have hmem' : (id, payload) ∈ entry.filter (fun kv => kv.1 == id || kv.1 == "on") := by
    simp [List.mem_filter, hmem]
  have hothers' : ∀ kv ∈ entry.filter (fun kv => kv.1 == id || kv.1 == "on"), kv.1 ≠ id →
      LoadedExchangeStrategies.lookup kv.1 = none :=
    fun kv hkv => hothers kv (List.mem_filter.mp hkv).1
  have hsecond := hrun _ stash' hnodup' hmem' hothers' hsection'
  have hmounts : entryMounts (entry.filter (fun kv => kv.1 == id || kv.1 == "on"))
      = entryMounts entry := by
    unfold entryMounts
    rw [lookup_filter_of_kept (fun kv => kv.1 == id || kv.1 == "on") "on" entry
      (by intro kv _ hk; simp [hk])]
  refine ⟨hfirst, ?_⟩
  rw [hsecond, hfirst, hmounts]

/-- Claim C7, amended, at the entry
`{note: "x", on: "session1", foo: {bar: 5}, bar: {qux: 1}}` with only `foo`
registered: one mount on `["session1"]`, as for `{on: "session1", foo: {bar: 5}}`. -/
theorem unregistered_keys_are_ignored_witness :
    loadExchangeStrategies (Test.lib []) [("foo", Test.Single.Foo 0)]
        (Config.zero : Config Unit Test.Single Test.Cross)
        [("exchangeStrategies",
          .list [.stash [("note", .str "x"), ("on", .str "session1"),
                         ("foo", .stash [("bar", .int 5)]), ("bar", .stash [("qux", .int 1)])]])]
      = ({ (Config.zero : Config Unit Test.Single Test.Cross) with
           ExchangeStrategies := [{ Mounts := ["session1"], Strategy := Test.Single.Foo 5 }] },
         none) ∧
    loadExchangeStrategies (Test.lib []) [("foo", Test.Single.Foo 0)]
        (Config.zero : Config Unit Test.Single Test.Cross)
        [("exchangeStrategies",
          .list [.stash [("on", .str "session1"), ("foo", .stash [("bar", .int 5)])]])]
      = loadExchangeStrategies (Test.lib []) [("foo", Test.Single.Foo 0)]
        (Config.zero : Config Unit Test.Single Test.Cross)
        [("exchangeStrategies",
          .list [.stash [("note", .str "x"), ("on", .str "session1"),
                         ("foo", .stash [("bar", .int 5)]), ("bar", .stash [("qux", .int 1)])]])] :=
  unregistered_keys_are_ignored (Test.lib []) [("foo", Test.Single.Foo 0)] Config.zero
    [("exchangeStrategies",
      .list [.stash [("note", .str "x"), ("on", .str "session1"),
                     ("foo", .stash [("bar", .int 5)]), ("bar", .stash [("qux", .int 1)])]])]
    [("exchangeStrategies",
      .list [.stash [("on", .str "session1"), ("foo", .stash [("bar", .int 5)])]])]
    [("note", .str "x"), ("on", .str "session1"),
     ("foo", .stash [("bar", .int 5)]), ("bar", .stash [("qux", .int 1)])]
    "foo" (.stash [("bar", .int 5)]) (Test.Single.Foo 0) (Test.Single.Foo 5)
    (by decide) (by simp) rfl rfl
    (by
      intro kv hkv hne
      simp only [List.mem_cons, List.mem_singleton, List.not_mem_nil, or_false] at hkv
      rcases hkv with h | h | h | h <;> subst h <;> first | rfl | exact absurd rfl hne)
    rfl rfl

/-! ### `Load` is all-or-nothing -/

/-- Whatever the file, the registries and the library do, `Load` panics, or
returns a `Config` with a nil error, or returns a nil `Config` with an error. -/
theorem Load_all_or_nothing (L : Lib β ρ σ χ) (LoadedExchangeStrategies : Registry σ)
    (LoadedCrossExchangeStrategies : Registry χ) (configFile : String) :
    Load L LoadedExchangeStrategies LoadedCrossExchangeStrategies configFile = .panicked ∨
    (∃ config, Load L LoadedExchangeStrategies LoadedCrossExchangeStrategies configFile
      = .returned (some config, none)) ∨
    (∃ err, Load L LoadedExchangeStrategies LoadedCrossExchangeStrategies configFile
      = .returned (none, some err)) := by
  unfold Load
  split
  · exact Or.inr (Or.inr ⟨_, rfl⟩)
  · split
    · exact Or.inr (Or.inr ⟨_, rfl⟩)
    · split
      · exact Or.inr (Or.inr ⟨_, rfl⟩)
      · split
        · exact Or.inr (Or.inr ⟨_, rfl⟩)
        · split
          · exact Or.inl rfl
          · exact Or.inr (Or.inr ⟨_, rfl⟩)
          · exact Or.inr (Or.inl ⟨_, rfl⟩)

/-- The key loop reports an error when a registered key among the pairs still
to visit has a payload that does not decode. -/
theorem loadExchangeStrategyKeys_of_undecodable (L : Lib β ρ σ χ)
    (LoadedExchangeStrategies : Registry σ) (mounts : List String)
    (id : String) (payload : Value) (prototype : σ) (cause : Err β)
    (hid : LoadedExchangeStrategies.lookup id = some prototype)
    (hdecode : reUnmarshal L payload prototype = .error cause)
    (kvs : List (String × Value)) (hmem : (id, payload) ∈ kvs) (config : Config ρ σ χ) :
    ∃ config' err,
      loadExchangeStrategyKeys L LoadedExchangeStrategies mounts config kvs
        = (config', some err) := by
  induction kvs generalizing config with
  | nil => simp at hmem
  | cons kv rest ih =>
    obtain ⟨k, conf⟩ := kv
    rcases List.mem_cons.mp hmem with hhead | htail
    · cases hhead
      exact ⟨config, cause, by simp [loadExchangeStrategyKeys, hid, hdecode]⟩
    · cases hlook : LoadedExchangeStrategies.lookup k with
      | none =>
        obtain ⟨c, e, h⟩ := ih htail config
        exact ⟨c, e, by simp [loadExchangeStrategyKeys, hlook, h]⟩
      | some st =>
        cases hval : reUnmarshal L conf st with
        | error e => exact ⟨config, e, by simp [loadExchangeStrategyKeys, hlook, hval]⟩
        | ok val =>
          obtain ⟨c, e, h⟩ := ih htail
            { config with
              ExchangeStrategies :=
                config.ExchangeStrategies ++ [{ Mounts := mounts, Strategy := val }] }
          exact ⟨c, e, by simp [loadExchangeStrategyKeys, hlook, hval, h]⟩

/-- The entry loop reports an error when some entry of the list holds a
registered key whose payload does not decode. -/
theorem loadExchangeStrategyEntries_of_undecodable (L : Lib β ρ σ χ)
    (LoadedExchangeStrategies : Registry σ)
    (id : String) (payload : Value) (prototype : σ) (cause : Err β)
    (hid : LoadedExchangeStrategies.lookup id = some prototype)
    (hdecode : reUnmarshal L payload prototype = .error cause)
    (entry : Stash) (hmem : (id, payload) ∈ entry)
    (configList : List Value) (hentry : Value.stash entry ∈ configList)
    (config : Config ρ σ χ) :
    ∃ config' err,
      loadExchangeStrategyEntries L LoadedExchangeStrategies config configList
        = (config', some err) := by
  induction configList generalizing config with
  | nil => simp at hentry
  | cons head rest ih =>
    have hbad : ∀ (kvs : Stash) (c : Config ρ σ χ),
        (Value.stash kvs = Value.stash entry ∨ Value.stash entry ∈ rest) →
        ∃ config' err,
          loadExchangeStrategyEntries L LoadedExchangeStrategies c (Value.stash kvs :: rest)
            = (config', some err) := by
      intro kvs c hcase
      cases hrun : loadExchangeStrategyKeys L LoadedExchangeStrategies (entryMounts kvs) c kvs with
      | mk c' r =>
        cases r with
        | some e => exact ⟨c', e, by simp [loadExchangeStrategyEntries, hrun]⟩
        | none =>
          rcases hcase with hsame | hlater
          · cases hsame
            obtain ⟨c2, e2, h2⟩ := loadExchangeStrategyKeys_of_undecodable L
              LoadedExchangeStrategies (entryMounts entry) id payload prototype cause hid hdecode
              entry hmem c
            rw [h2] at hrun
            cases hrun
          · obtain ⟨c2, e2, h2⟩ := ih hlater c'
            exact ⟨c2, e2, by simp [loadExchangeStrategyEntries, hrun, h2]⟩
    rcases List.mem_cons.mp hentry with hhead | htail
    · subst hhead
      exact hbad entry config (Or.inl rfl)
    · cases head with
      | stash kvs => exact hbad kvs config (Or.inr htail)
      | _ => exact ⟨config, _, rfl⟩

/-- When an entry of the `exchangeStrategies` section holds a key registered in
`LoadedExchangeStrategies` whose payload does not decode, `Load` returns an
error and a nil `Config`, whatever was resolved before the failure. -/
theorem Load_fails_on_undecodable_exchange_strategy (L : Lib β ρ σ χ)
    (LoadedExchangeStrategies : Registry σ) (LoadedCrossExchangeStrategies : Registry χ)
    (configFile content : String) (config : Config ρ σ χ) (stash : Stash)
    (configList : List Value) (entry : Stash)
    (id : String) (payload : Value) (prototype : σ) (cause : Err β)
    (hread : L.ReadFile configFile = .ok content)
    (hconfig : L.yamlConfig content = .ok config)
    (hstash : L.yamlStash content = .ok stash)
    (hsection : stash.lookup "exchangeStrategies" = some (.list configList))
    (hentry : Value.stash entry ∈ configList)
    (hmem : (id, payload) ∈ entry)
    (hid : LoadedExchangeStrategies.lookup id = some prototype)
    (hdecode : reUnmarshal L payload prototype = .error cause) :
    ∃ err, Load L LoadedExchangeStrategies LoadedCrossExchangeStrategies configFile
      = .returned (none, some err) := by
  have hreg : LoadedExchangeStrategies.length ≠ 0 := by
    intro h
    have hnil : LoadedExchangeStrategies = [] := List.length_eq_zero.mp h
    simp [hnil] at hid
  obtain ⟨c, e, h⟩ := loadExchangeStrategyEntries_of_undecodable L LoadedExchangeStrategies
    id payload prototype cause hid hdecode entry hmem configList hentry config
  exact ⟨e, by simp [Load, loadStash, hread, hconfig, hstash, loadExchangeStrategies,
    hsection, hreg, h]⟩

/-- At the document `exchangeStrategies: [{foo: {bar: 1}}, {foo: {bar: "five"}}]`
with `foo` registered, the first entry is resolved, the second fails to decode,
and `Load` returns an error and no `Config`. -/
theorem Load_fails_on_undecodable_exchange_strategy_witness :
    ∃ err, Load (Test.lib [("exchangeStrategies",
              .list [.stash [("foo", .stash [("bar", .int 1)])],
                     .stash [("foo", .stash [("bar", .str "five")])]])])
          [("foo", Test.Single.Foo 0)] ([] : Registry Test.Cross) "bbgo.yaml"
        = .returned (none, some err) :=
  Load_fails_on_undecodable_exchange_strategy
    (Test.lib [("exchangeStrategies",
      .list [.stash [("foo", .stash [("bar", .int 1)])],
             .stash [("foo", .stash [("bar", .str "five")])]])])
    [("foo", Test.Single.Foo 0)] [] "bbgo.yaml" "document" Config.zero
    [("exchangeStrategies",
      .list [.stash [("foo", .stash [("bar", .int 1)])],
             .stash [("foo", .stash [("bar", .str "five")])]])]
    [.stash [("foo", .stash [("bar", .int 1)])], .stash [("foo", .stash [("bar", .str "five")])]]
    [("foo", .stash [("bar", .str "five")])]
    "foo" (.stash [("bar", .str "five")]) (Test.Single.Foo 0)
    (.wrapf "json: cannot unmarshal into Go struct field Foo.bar of type int"
      (.stash [("bar", .str "five")]))
    rfl rfl rfl rfl (by simp) (by simp) rfl rfl

end LoaderTheorems

/-! ### `notifier.go` -/

section NotifyTheorems

variable {α ω R O ν : Type}

theorem notifiers_addAll (m : Notifiability α ω R O) (ns : List (Notifier α ω)) :
    (m.addAll ns).notifiers = m.notifiers ++ ns := by
  unfold Notifiability.addAll
  induction ns generalizing m with
  | nil => simp
  | cons n rest ih => simp [List.foldl_cons, ih, Notifiability.AddNotifier]

theorem notifyEach_eq_foldl (format : String) (args : List α) (ns : List (Notifier α ω))
    (w : ω) : notifyEach format args ns w = ns.foldl (fun w n => n.Notify format args w) w := by
  induction ns generalizing w with
  | nil => rfl
  | cons n rest ih => simp [notifyEach, ih]

theorem notifyToEach_eq_foldl (channel format : String) (args : List α)
    (ns : List (Notifier α ω)) (w : ω) :
    notifyToEach channel format args ns w
      = ns.foldl (fun w n => n.NotifyTo channel format args w) w := by
  induction ns generalizing w with
  | nil => rfl
  | cons n rest ih => simp [notifyToEach, ih]

theorem recorder_log_notify (format : String) (args : List α) (names : List ν)
    (log : List (Call ν α)) :
    notifyEach format args (names.map recorder) log
      = log ++ names.map (fun n => Call.Notify n format args) := by
  induction names generalizing log with
  | nil => simp [notifyEach]
  | cons n rest ih => simp [notifyEach, ih, recorder]

theorem recorder_log_notifyTo (channel format : String) (args : List α) (names : List ν)
    (log : List (Call ν α)) :
    notifyToEach channel format args (names.map recorder) log
      = log ++ names.map (fun n => Call.NotifyTo n channel format args) := by
  induction names generalizing log with
  | nil => simp [notifyToEach]
  | cons n rest ih => simp [notifyToEach, ih, recorder]

/-- Claim C10. Let `m` be obtained from a `Notifiability` without notifiers by
adding `n1, ..., nk` with successive `AddNotifier` calls. Then the notifier list
of `m` is `n1, ..., nk`; one `Notify(format, args)` applies `Notify(format, args)`
of `n1`, then of `n2`, ..., then of `nk` to the world, each once, and returns
`m` unchanged; one `NotifyTo(channel, format, args)` does the same with the
`NotifyTo(channel, format, args)` methods. When the notifiers are recorders
named `names`, the call log after one `Notify` (respectively `NotifyTo`) is
exactly one invocation per name, with the arguments given, in the order the
recorders were added. -/
theorem notify_invokes_each_in_order (session symbol : Option R) (object : Option O)
    (ns : List (Notifier α ω)) (names : List ν)
    (channel format : String) (args : List α) (w : ω) :
    ((Notifiability.empty session symbol object).addAll ns).notifiers = ns ∧
    ((Notifiability.empty session symbol object).addAll ns).Notify format args w
      = ((Notifiability.empty session symbol object).addAll ns,
         ns.foldl (fun w n => n.Notify format args w) w) ∧
    ((Notifiability.empty session symbol object).addAll ns).NotifyTo channel format args w
      = ((Notifiability.empty session symbol object).addAll ns,
         ns.foldl (fun w n => n.NotifyTo channel format args w) w) ∧
    (((Notifiability.empty session symbol object).addAll (names.map recorder)).Notify
        format args []).2 = names.map (fun n => Call.Notify n format args) ∧
    (((Notifiability.empty session symbol object).addAll (names.map recorder)).NotifyTo
        channel format args []).2 = names.map (fun n => Call.NotifyTo n channel format args) := by
  have hns : ∀ l : List (Notifier α ω),
      ((Notifiability.empty session symbol object : Notifiability α ω R O).addAll l).notifiers
        = l := by
    intro l
    simp [notifiers_addAll, Notifiability.empty]
  have hrec : ((Notifiability.empty session symbol object :
      Notifiability α (List (Call ν α)) R O).addAll (names.map recorder)).notifiers
        = names.map recorder := by
    simp [notifiers_addAll, Notifiability.empty]
  refine ⟨hns ns, ?_, ?_, ?_, ?_⟩
  · simp [Notifiability.Notify, hns, notifyEach_eq_foldl]
  · simp [Notifiability.NotifyTo, hns, notifyToEach_eq_foldl]
  · simp only [Notifiability.Notify, hrec, recorder_log_notify, List.nil_append]
  · simp only [Notifiability.NotifyTo, hrec, recorder_log_notifyTo, List.nil_append]

end NotifyTheorems

end Bbgo
